import Mathlib

/-!
Verification of the marker-stream scanning core shared by the two programs of
the mjpg-tools repository: `jpgtrace.c` (a trace printer for JPEG / raw
Motion-JPEG streams) and `mjpg_index.c` (a frame indexer that records the byte
offset of every Start-Of-Image marker into a binary index file).

The two `main` functions contain a byte-for-byte identical scanning loop
(jpgtrace.c lines 368-604, mjpg_index.c lines 369-608); they differ only in
their observable effects:
  - jpgtrace reports every marker and immediate marker via `reportMarker`
    (and silently saturates its frame counter at LONG_MAX),
  - mjpg_index maintains `read_count`, writes the offset of each SOI marker
    to the index file, and treats frame-counter overflow as a fatal error.

We embed the shared core once, over a machine state `M` that carries all
observables of both programs (an event list modelling the reportMarker calls
and the marker-unit events of the spec, and an index-write log modelling the
`writeInt64BE` calls).  A `Mode` flag selects the one behavioral difference
(frame-counter overflow handling) and which front end's output is meaningful.

Modelling decisions, all noted where they matter:
  - The input is a `List Nat` of bytes; `getc` is `List.get?` at a position
    cursor.  A real file's bytes are < 256; some classifier facts note this.
  - `getc` returning EOF does not move the file position, but the indexer's
    `read_count` variable is incremented before the EOF test
    (mjpg_index.c lines 372-374), so the model increments `rc` on EOF too.
  - `fseeko` forward over a payload always succeeds (seeking past EOF is legal
    on a regular file; the subsequent read then reports EOF), so payload skips
    never fail in the model; the backward -2 seek is `pos - 2`, and every
    reachable call site has pos >= 2.
  - `LONG_MAX` is modelled as a parameter `lm : Nat`: the C code's control
    flow is uniform in the value of LONG_MAX, only comparing `frame_count`
    against it (jpgtrace.c 436, 609; mjpg_index.c 430).
  - I/O faults (ferror paths) do not arise for a pure in-memory byte source,
    so the model has only the end-of-stream outcomes; every distinct fatal
    diagnostic of the C code is a distinct `Err` constructor.
-/

/-- The distinct fatal diagnostics printed by the two programs (each is
followed by exit status 1 in the C code). -/
inductive Err where
  | missingEOI
  | missingPremark
  | missingMarkerByte
  | missingMarkerLength
  | truncMarkerLength
  | markerLengthLtTwo
  | eofInCompressed
  | dnlUnsupported
  | tooManyFrames
  | noFrames
deriving DecidableEq

/-- Events delivered to the consumer: `mark c off` models a top-level
`reportMarker(c, 0)` call / marker-unit event, carrying the absolute offset
of the pre-marker 0xFF byte immediately preceding the marker byte (the value
`read_count - 2` that mjpg_index.c line 432 records for SOI); `immed c`
models `reportMarker(c, 1)` for an immediate marker inside scan data. -/
inductive Ev where
  | mark (c : Nat) (off : Int)
  | immed (c : Nat)
deriving DecidableEq

/-- One `writeInt64BE` call on the index file: `seq v` writes v at the
current (sequential) position; `rewindCount v` models the final
`rewind(fi); writeInt64BE(fi, frame_count)` (mjpg_index.c lines 617-620). -/
inductive IdxW where
  | seq (v : Int)
  | rewindCount (v : Int)
deriving DecidableEq

/-- Which front end's behavior is selected at the two points where the two
`main` functions differ (frame-counter overflow handling). -/
inductive Mode where
  | trace
  | index
deriving DecidableEq

/-- Machine state of the scanning core.  `pos` is the file position (bytes
actually consumed by reads and forward seeks, minus the two bytes returned
by each scan-data backtrack); `rc` is mjpg_index.c's `read_count` variable;
`frames` is `frame_count`; `eoiRead` is the `eoi_read` flag; `events` is the
consumer-visible event sequence; `ilog` is the log of index-file writes. -/
structure M where
  data : List Nat
  pos : Nat
  rc : Int
  frames : Nat
  eoiRead : Bool
  events : List Ev
  ilog : List IdxW
deriving DecidableEq

/-- Consume k bytes: file position and read_count advance together
(a successful `getc` is k = 1; a successful payload seek is k = mark_len,
mjpg_index.c lines 508-513). -/
def advance (k : Nat) (s : M) : M :=
  { s with pos := s.pos + k, rc := s.rc + k }

/-- `read_count++` on a `getc` that returned EOF: the file position does not
move but the counter is incremented (mjpg_index.c lines 372-373 and every
other getc site). -/
def tickRC (s : M) : M :=
  { s with rc := s.rc + 1 }

/-- Report a top-level marker: `reportMarker(c, 0)` (jpgtrace.c line 430).
The recorded offset `rc - 2` is the position of the 0xFF byte immediately
preceding the marker byte, matching mjpg_index.c line 432. -/
def emitMark (s : M) (c : Nat) : M :=
  { s with events := s.events ++ [Ev.mark c (s.rc - 2)] }

/-- Report an immediate marker inside scan data: `reportMarker(c, 1)`
(jpgtrace.c line 575). -/
def emitImm (s : M) (c : Nat) : M :=
  { s with events := s.events ++ [Ev.immed c] }

/-- End-of-iteration update of the `eoi_read` flag (jpgtrace.c lines
596-603, mjpg_index.c lines 600-607). -/
def setEoi (s : M) (c : Nat) : M :=
  { s with eoiRead := c == 0xd9 }

/-- jpeg_isStandAlone (jpgtrace.c lines 103-123, mjpg_index.c 112-132),
restricted to its non-aborting domain: TEM, RST0-RST7, SOI, EOI. -/
def jpeg_isStandAlone (c : Nat) : Bool :=
  decide (c = 0x01 ∨ (0xd0 ≤ c ∧ c ≤ 0xd7) ∨ c = 0xd8 ∨ c = 0xd9)

/-- jpeg_isImmediate (jpgtrace.c lines 142-161, mjpg_index.c 151-170),
restricted to its non-aborting domain: DNL and RST0-RST7. -/
def jpeg_isImmediate (c : Nat) : Bool :=
  decide (c = 0xdc ∨ (0xd0 ≤ c ∧ c ≤ 0xd7))

/-- jpeg_isStandAlone including its guard: the C function aborts (`abort()`)
when the argument is outside 0x00-0xFE; `none` models that abort.  Every
call site passes a byte obtained from `getc` that is not 0xFF, so for real
byte streams the abort is unreachable. -/
def jpeg_isStandAloneChk (c : Nat) : Option Bool :=
  if c ≤ 0xfe then some (jpeg_isStandAlone c) else none

/-- jpeg_isImmediate including its abort guard, as for
`jpeg_isStandAloneChk`. -/
def jpeg_isImmediateChk (c : Nat) : Option Bool :=
  if c ≤ 0xfe then some (jpeg_isImmediate c) else none

/-- Result of the 0xFF-collapsing read loops. -/
inductive RRes where
  | fuelOut
  | eofHit
  | byte (b : Nat)
deriving DecidableEq

/-- The loop that reads bytes while they are 0xFF, returning the first
non-0xFF byte read.  This is both the top-level marker-byte loop
(jpgtrace.c lines 400-421, mjpg_index.c 402-424) and the in-scan pre-marker
collapse loop (jpgtrace.c lines 540-561, mjpg_index.c 544-566); the two are
textually identical except for their EOF diagnostic, which the caller
supplies.  Fuel only bounds the recursion depth. -/
def skipFFRun : Nat → M → M × RRes
  | 0, s => (s, RRes.fuelOut)
  | n + 1, s =>
    match s.data[s.pos]? with
    | none => (tickRC s, RRes.eofHit)
    | some b =>
      if b = 0xff then skipFFRun n (advance 1 s) else (advance 1 s, RRes.byte b)

/-- The exact two-byte backward seek undoing consumption of the 0xFF and the
marker byte (jpgtrace.c lines 584-591, mjpg_index.c 586-595). -/
def backTwo (s : M) : M :=
  { s with pos := s.pos - 2, rc := s.rc - 2 }

/-- Result of the scan-data skipper. -/
inductive SRes where
  | fuelOut
  | errS (e : Err)
  | done
deriving DecidableEq

/-- The scan-data skipper (jpgtrace.c lines 515-594, mjpg_index.c 518-598):
consume compressed bytes after an SOS marker; on an 0xFF run followed by a
byte V, discard V = 0 (literal-0xFF escape), report V as an immediate and
fail if it is DNL (reportMarker comes first in jpgtrace.c lines 573-581),
continue on other immediates, and for a non-immediate marker step the cursor
back exactly two bytes and terminate (`done`). -/
def scanData : Nat → M → M × SRes
  | 0, s => (s, SRes.fuelOut)
  | n + 1, s =>
    match s.data[s.pos]? with
    | none => (tickRC s, SRes.errS Err.eofInCompressed)
    | some b =>
      if b = 0xff then
        match skipFFRun n (advance 1 s) with
        | (t, RRes.fuelOut) => (t, SRes.fuelOut)
        | (t, RRes.eofHit) => (t, SRes.errS Err.eofInCompressed)
        | (t, RRes.byte v) =>
          if v = 0 then scanData n t
          else if jpeg_isImmediate v then
            if v = 0xdc then (emitImm t v, SRes.errS Err.dnlUnsupported)
            else scanData n (emitImm t v)
          else (backTwo t, SRes.done)
      else scanData n (advance 1 s)

/-- The SOI bookkeeping step (jpgtrace.c lines 433-439, mjpg_index.c
426-438): on a Start-Of-Image marker, if the frame counter is below
LONG_MAX (`lm`) increment it and log the frame offset `read_count - 2`;
at the limit, jpgtrace silently leaves the counter saturated while
mjpg_index fails with its "Too many frames!" diagnostic. -/
def soiStep (lm : Nat) (mode : Mode) (s : M) (c : Nat) : M × Option Err :=
  if c = 0xd8 then
    if s.frames < lm then
      ({ s with frames := s.frames + 1, ilog := s.ilog ++ [IdxW.seq (s.rc - 2)] }, none)
    else
      match mode with
      | Mode.trace => (s, none)
      | Mode.index => (s, some Err.tooManyFrames)
  else (s, none)

/-- The marker-length step (jpgtrace.c lines 441-502, mjpg_index.c 440-503):
a stand-alone marker has length 0 and no length field; otherwise two bytes
are read, combined big-endian as `(b1 << 8) | b2`, required to be at least
2, and 2 is subtracted for the length field itself.  Returns the payload
length. -/
def lengthStep (s : M) (c : Nat) : M × Except Err Nat :=
  if jpeg_isStandAlone c then (s, Except.ok 0)
  else
    match s.data[s.pos]? with
    | none => (tickRC s, Except.error Err.missingMarkerLength)
    | some b1 =>
      match s.data[s.pos + 1]? with
      | none => (tickRC (advance 1 s), Except.error Err.truncMarkerLength)
      | some b2 =>
        let len := (b1 <<< 8) ||| b2
        if len < 2 then (advance 2 s, Except.error Err.markerLengthLtTwo)
        else (advance 2 s, Except.ok (len - 2))

/-- Skip the data payload with a forward seek (jpgtrace.c lines 506-511,
mjpg_index.c 507-514); read_count advances by the same amount. -/
def skipPayload (s : M) (n : Nat) : M :=
  if 0 < n then advance n s else s

/-- Outcome of one top-level loop iteration. -/
inductive IOut where
  | fuelOut (s : M)
  | finished (s : M)
  | failed (s : M) (e : Err)
  | next (s : M)
deriving DecidableEq

/-- The part of a top-level iteration after the marker byte `c` has been
obtained: report the marker, do SOI bookkeeping, read/validate the length
field, skip the payload, and for SOS run the scan-data skipper; finally
update the `eoi_read` flag. -/
def afterMarker (lm : Nat) (mode : Mode) (n : Nat) (s : M) (c : Nat) : IOut :=
  let s1 := emitMark s c
  match soiStep lm mode s1 c with
  | (s2, some e) => IOut.failed s2 e
  | (s2, none) =>
    match lengthStep s2 c with
    | (s3, Except.error e) => IOut.failed s3 e
    | (s3, Except.ok payLen) =>
      let s4 := skipPayload s3 payLen
      if c = 0xda then
        match scanData n s4 with
        | (s5, SRes.fuelOut) => IOut.fuelOut s5
        | (s5, SRes.errS e) => IOut.failed s5 e
        | (s5, SRes.done) => IOut.next (setEoi s5 c)
      else IOut.next (setEoi s4 c)

/-- One iteration of the top-level marker loop (jpgtrace.c lines 368-604,
mjpg_index.c 369-608): read a byte; EOF here is success exactly when the
previous marker unit was EOI, else the "Missing EOI marker!" error; a
non-0xFF byte is the "Missing pre-marker byte!" error; otherwise collapse
the 0xFF run to the marker byte and proceed. -/
def runIter (lm : Nat) (mode : Mode) (n : Nat) (s : M) : IOut :=
  match s.data[s.pos]? with
  | none =>
    if s.eoiRead then IOut.finished (tickRC s) else IOut.failed (tickRC s) Err.missingEOI
  | some c =>
    let s1 := advance 1 s
    if c = 0xff then
      match skipFFRun n s1 with
      | (s2, RRes.fuelOut) => IOut.fuelOut s2
      | (s2, RRes.eofHit) => IOut.failed s2 Err.missingMarkerByte
      | (s2, RRes.byte m) => afterMarker lm mode n s2 m
    else IOut.failed s1 Err.missingPremark

/-- Final result of the top-level loop. -/
inductive LRes where
  | fuelOut
  | success
  | fail (e : Err)
deriving DecidableEq

/-- The top-level marker loop, iterated with fuel. -/
def runLoop (lm : Nat) (mode : Mode) : Nat → M → M × LRes
  | 0, s => (s, LRes.fuelOut)
  | n + 1, s =>
    match runIter lm mode n s with
    | IOut.fuelOut t => (t, LRes.fuelOut)
    | IOut.finished t => (t, LRes.success)
    | IOut.failed t e => (t, LRes.fail e)
    | IOut.next t => runLoop lm mode n t

/-- Initial machine state: in index mode, the zero placeholder for the frame
count has already been written (mjpg_index.c lines 362-366). -/
def initM (mode : Mode) (data : List Nat) : M :=
  { data := data, pos := 0, rc := 0, frames := 0, eoiRead := false, events := [],
    ilog := match mode with | Mode.index => [IdxW.seq 0] | Mode.trace => [] }

/-- A full run of mjpg_index's main after the files are open: the scanning
loop, the at-least-one-frame check (lines 611-614), and the final
rewind-and-rewrite of the frame count (lines 616-620). -/
def mjpgIndexRun (lm fuel : Nat) (data : List Nat) : M × LRes :=
  match runLoop lm Mode.index fuel (initM Mode.index data) with
  | (s, LRes.success) =>
    if s.frames < 1 then (s, LRes.fail Err.noFrames)
    else ({ s with ilog := s.ilog ++ [IdxW.rewindCount (Int.ofNat s.frames)] }, LRes.success)
  | r => r

/-- A full run of jpgtrace's main after the file is open. -/
def jpgtraceRun (lm fuel : Nat) (data : List Nat) : M × LRes :=
  runLoop lm Mode.trace fuel (initM Mode.trace data)

/-- jpgtrace's final statistics line (lines 606-614): the image count is
printed when `frame_count < LONG_MAX`, otherwise the "(overflow!)"
indication is printed instead of a number (`none`). -/
def traceImageCount (lm : Nat) (s : M) : Option Nat :=
  if s.frames < lm then some s.frames else none

/-- Write integer v into slot i of the 64-bit-integer file image (the file
grows by one slot when writing at the end, which is the only in-range use
the programs make). -/
def setSlot (l : List Int) (i : Nat) (v : Int) : List Int :=
  if i < l.length then l.set i v else l ++ [v]

/-- Replay one logged `writeInt64BE` on (file image, write cursor). -/
def applyIdxW (acc : List Int × Nat) (w : IdxW) : List Int × Nat :=
  match w with
  | IdxW.seq v => (setSlot acc.1 acc.2 v, acc.2 + 1)
  | IdxW.rewindCount v => (setSlot acc.1 0 v, 1)

/-- The index file contents, as a list of 64-bit integers, produced by a
log of writes. -/
def indexFileInts (log : List IdxW) : List Int :=
  (log.foldl applyIdxW ([], 0)).1

/-- writeInt64BE (mjpg_index.c lines 188-209): the eight bytes of a
nonnegative 64-bit value in big-endian order. -/
def int64be (v : Int) : List Nat :=
  [v.toNat >>> 56 &&& 0xff, v.toNat >>> 48 &&& 0xff, v.toNat >>> 40 &&& 0xff,
   v.toNat >>> 32 &&& 0xff, v.toNat >>> 24 &&& 0xff, v.toNat >>> 16 &&& 0xff,
   v.toNat >>> 8 &&& 0xff, v.toNat &&& 0xff]

/-- The index file contents as raw bytes. -/
def indexFileBytes (log : List IdxW) : List Nat :=
  ((indexFileInts log).map int64be).flatten

/-- The machine state carried by an iteration outcome. -/
def mOf : IOut → M
  | IOut.fuelOut s => s
  | IOut.finished s => s
  | IOut.failed s _ => s
  | IOut.next s => s

theorem advance_advance (a b : Nat) (s : M) : advance a (advance b s) = advance (b + a) s := by
  simp only [advance]
  congr 1
  · omega
  · push_cast
    ring

theorem advance_zero (s : M) : advance 0 s = s := by
  simp [advance]

theorem skipFFRun_byte (n : Nat) (s t : M) (b : Nat)
    (h : skipFFRun n s = (t, RRes.byte b)) :
    ∃ m : Nat, t = advance (m + 1) s ∧ s.data[s.pos + m]? = some b ∧ b ≠ 0xff ∧
      ∀ i, i < m → s.data[s.pos + i]? = some 0xff := by
  induction n generalizing s with
  | zero => simp [skipFFRun] at h
  | succ n ih =>
    rw [skipFFRun] at h
    cases hg : s.data[s.pos]? with
    | none => simp [hg] at h
    | some b0 =>
      simp only [hg] at h
      by_cases hb : b0 = 0xff
      · subst hb
        rw [if_pos rfl] at h
        obtain ⟨m, ht, hgm, hbff, hff⟩ := ih (advance 1 s) h
        refine ⟨m + 1, ?_, ?_, hbff, ?_⟩
        · rw [ht, advance_advance, Nat.add_comm]
        · simpa [advance, Nat.add_comm, Nat.add_assoc, Nat.add_left_comm] using hgm
        · intro i hi
          cases i with
          | zero => simpa using hg
          | succ j =>
            have := hff j (by omega)
            simpa [advance, Nat.add_comm, Nat.add_assoc, Nat.add_left_comm] using this
      · rw [if_neg hb] at h
        obtain ⟨rfl, rfl⟩ : advance 1 s = t ∧ b0 = b := by
          cases h; exact ⟨rfl, rfl⟩
        exact ⟨0, rfl, by simpa using hg, hb, by omega⟩

theorem skipFFRun_frame (n : Nat) (s t : M) (r : RRes) (h : skipFFRun n s = (t, r)) :
    t.data = s.data ∧ t.events = s.events ∧ t.ilog = s.ilog ∧ t.frames = s.frames ∧
      t.eoiRead = s.eoiRead ∧ s.pos ≤ t.pos := by
  induction n generalizing s with
  | zero =>
    rw [skipFFRun] at h
    cases h
    simp
  | succ n ih =>
    rw [skipFFRun] at h
    cases hg : s.data[s.pos]? with
    | none =>
      simp only [hg] at h
      cases h
      simp [tickRC]
    | some b0 =>
      simp only [hg] at h
      by_cases hb : b0 = 0xff
      · subst hb
        rw [if_pos rfl] at h
        obtain ⟨h1, h2, h3, h4, h5, h6⟩ := ih (advance 1 s) h
        refine ⟨by simpa [advance] using h1, by simpa [advance] using h2,
          by simpa [advance] using h3, by simpa [advance] using h4,
          by simpa [advance] using h5, ?_⟩
        simp only [advance] at h6
        omega
      · rw [if_neg hb] at h
        cases h
        refine ⟨rfl, rfl, rfl, rfl, rfl, ?_⟩
        simp [advance]

theorem skipFFRun_exact (k n : Nat) (s : M) (b : Nat)
    (hff : ∀ i, i < k → s.data[s.pos + i]? = some 0xff)
    (hb : s.data[s.pos + k]? = some b) (hbne : b ≠ 0xff) (hk : k < n) :
    skipFFRun n s = (advance (k + 1) s, RRes.byte b) := by
  induction k generalizing s n with
  | zero =>
    cases n with
    | zero => omega
    | succ n =>
      rw [skipFFRun]
      simp only [show s.data[s.pos]? = some b from by simpa using hb]
      rw [if_neg hbne]
  | succ k ih =>
    cases n with
    | zero => omega
    | succ n =>
      rw [skipFFRun]
      have h0 : s.data[s.pos]? = some 0xff := by simpa using hff 0 (by omega)
      simp only [h0, ite_true, eq_self_iff_true]
      rw [ih n (advance 1 s)
        (by
          intro i hi
          have := hff (i + 1) (by omega)
          simpa [advance, Nat.add_comm, Nat.add_assoc, Nat.add_left_comm] using this)
        (by simpa [advance, Nat.add_comm, Nat.add_assoc, Nat.add_left_comm] using hb)
        (by omega)]
      rw [advance_advance]
      congr 2
      omega

theorem scanData_props (n : Nat) (s t : M) (r : SRes) (h : scanData n s = (t, r)) :
    t.data = s.data ∧ t.ilog = s.ilog ∧ t.frames = s.frames ∧ t.eoiRead = s.eoiRead ∧
    (∃ tail, t.events = s.events ++ tail) ∧
    (r = SRes.done →
      s.pos ≤ t.pos ∧ t.rc - (t.pos : Int) = s.rc - (s.pos : Int) ∧
      ∃ v, s.data[t.pos]? = some 0xff ∧ s.data[t.pos + 1]? = some v ∧
        v ≠ 0xff ∧ v ≠ 0 ∧ jpeg_isImmediate v = false) := by
  induction n generalizing s with
  | zero =>
    rw [scanData] at h
    cases h
    exact ⟨rfl, rfl, rfl, rfl, ⟨[], by simp⟩, by intro hc; cases hc⟩
  | succ n ih =>
    rw [scanData] at h
    cases hg : s.data[s.pos]? with
    | none =>
      simp only [hg] at h
      cases h
      exact ⟨rfl, rfl, rfl, rfl, ⟨[], by simp [tickRC]⟩, by intro hc; cases hc⟩
    | some b =>
      simp only [hg] at h
      by_cases hbff : b = 0xff
      · subst hbff
        rw [if_pos rfl] at h
        cases hsk : skipFFRun n (advance 1 s) with
        | mk u rr =>
          rw [hsk] at h
          obtain ⟨hud, hue, hui, huf, hub, hup⟩ := skipFFRun_frame n (advance 1 s) u rr hsk
          have hud' : u.data = s.data := by simpa [advance] using hud
          have hue' : u.events = s.events := by simpa [advance] using hue
          have hui' : u.ilog = s.ilog := by simpa [advance] using hui
          have huf' : u.frames = s.frames := by simpa [advance] using huf
          have hub' : u.eoiRead = s.eoiRead := by simpa [advance] using hub
          cases rr with
          | fuelOut =>
            cases h
            exact ⟨hud', hui', huf', hub', ⟨[], by simp [hue']⟩, by intro hc; cases hc⟩
          | eofHit =>
            cases h
            exact ⟨hud', hui', huf', hub', ⟨[], by simp [hue']⟩, by intro hc; cases hc⟩
          | byte v =>
            dsimp only at h
            obtain ⟨m, hadv, hgv, hvff, hff⟩ := skipFFRun_byte n (advance 1 s) u v hsk
            have hupos : u.pos = s.pos + m + 2 := by
              rw [hadv]
              simp [advance]
              omega
            have hurc : u.rc = s.rc + (m + 2 : Nat) := by
              rw [hadv]
              simp [advance]
              ring
            have hgv' : s.data[s.pos + 1 + m]? = some v := by
              simpa [advance] using hgv
            by_cases hv0 : v = 0
            · subst hv0
              rw [if_pos rfl] at h
              obtain ⟨h1, h2, h3, h4, ⟨tl, h5⟩, h6⟩ := ih u h
              refine ⟨h1.trans hud', h2.trans hui', h3.trans huf', h4.trans hub',
                ⟨tl, by rw [h5, hue']⟩, ?_⟩
              intro hr
              obtain ⟨hp1, hp2, hex⟩ := h6 hr
              refine ⟨by omega, ?_, ?_⟩
              · rw [hp2, hurc, hupos]
                push_cast
                ring
              · obtain ⟨v', hv1, hv2, hv3, hv4, hv5⟩ := hex
                exact ⟨v', by rwa [hud'] at hv1, by rwa [hud'] at hv2, hv3, hv4, hv5⟩
            · rw [if_neg hv0] at h
              by_cases himm : jpeg_isImmediate v
              · rw [if_pos himm] at h
                by_cases hdnl : v = 0xdc
                · subst hdnl
                  rw [if_pos rfl] at h
                  cases h
                  refine ⟨hud', hui', huf', hub', ⟨[Ev.immed 0xdc], by simp [emitImm, hue']⟩,
                    by intro hc; cases hc⟩
                · rw [if_neg hdnl] at h
                  obtain ⟨h1, h2, h3, h4, ⟨tl, h5⟩, h6⟩ := ih (emitImm u v) h
                  refine ⟨h1.trans hud', h2.trans hui', h3.trans huf', h4.trans hub',
                    ⟨Ev.immed v :: tl, by rw [h5]; simp [emitImm, hue']⟩, ?_⟩
                  intro hr
                  obtain ⟨hp1, hp2, hex⟩ := h6 hr
                  have hep : (emitImm u v).pos = u.pos := rfl
                  have her : (emitImm u v).rc = u.rc := rfl
                  refine ⟨by omega, ?_, ?_⟩
                  · rw [hp2, her, hep, hurc, hupos]
                    push_cast
                    ring
                  · obtain ⟨v', hv1, hv2, hv3, hv4, hv5⟩ := hex
                    have hed : (emitImm u v).data = s.data := hud'
                    exact ⟨v', by rwa [hed] at hv1, by rwa [hed] at hv2, hv3, hv4, hv5⟩
              · rw [if_neg himm] at h
                cases h
                refine ⟨hud', hui', huf', hub', ⟨[], by simp [backTwo, hue']⟩, ?_⟩
                intro _
                refine ⟨?_, ?_, ?_⟩
                · show s.pos ≤ u.pos - 2
                  omega
                · show u.rc - 2 - ((u.pos - 2 : Nat) : Int) = s.rc - (s.pos : Int)
                  have h2 : u.pos - 2 = s.pos + m := by omega
                  rw [h2, hurc]
                  push_cast
                  omega
                · refine ⟨v, ?_, ?_, hvff, hv0, by simpa using himm⟩
                  · show s.data[u.pos - 2]? = some 0xff
                    have hpos2 : u.pos - 2 = s.pos + m := by omega
                    rw [hpos2]
                    cases m with
                    | zero => simpa using hg
                    | succ j =>
                      have := hff j (by omega)
                      have : s.data[s.pos + 1 + j]? = some 0xff := by
                        simpa [advance] using this
                      simpa [Nat.add_comm, Nat.add_assoc, Nat.add_left_comm] using this
                  · show s.data[u.pos - 2 + 1]? = some v
                    have hpos2 : u.pos - 2 + 1 = s.pos + 1 + m := by omega
                    rw [hpos2]
                    exact hgv'
      · rw [if_neg hbff] at h
        obtain ⟨h1, h2, h3, h4, ⟨tl, h5⟩, h6⟩ := ih (advance 1 s) h
        refine ⟨by simpa [advance] using h1, by simpa [advance] using h2,
          by simpa [advance] using h3, by simpa [advance] using h4,
          ⟨tl, by simpa [advance] using h5⟩, ?_⟩
        intro hr
        obtain ⟨hp1, hp2, hex⟩ := h6 hr
        have hap : (advance 1 s).pos = s.pos + 1 := rfl
        refine ⟨by omega, ?_, ?_⟩
        · rw [hp2]
          simp only [advance]
          push_cast
          omega
        · obtain ⟨v', hv1, hv2, hv3, hv4, hv5⟩ := hex
          exact ⟨v', by simpa [advance] using hv1, by simpa [advance] using hv2, hv3, hv4, hv5⟩

theorem soiStep_not_soi (lm : Nat) (mode : Mode) (s : M) (c : Nat) (hc : c ≠ 0xd8) :
    soiStep lm mode s c = (s, none) := by
  simp [soiStep, hc]

theorem soiStep_soi_lt (lm : Nat) (mode : Mode) (s : M) (hlt : s.frames < lm) :
    soiStep lm mode s 0xd8 =
      ({ s with frames := s.frames + 1, ilog := s.ilog ++ [IdxW.seq (s.rc - 2)] }, none) := by
  simp [soiStep, hlt]

theorem soiStep_soi_sat_trace (lm : Nat) (s : M) (hge : ¬ s.frames < lm) :
    soiStep lm Mode.trace s 0xd8 = (s, none) := by
  simp [soiStep, hge]

theorem soiStep_soi_sat_index (lm : Nat) (s : M) (hge : ¬ s.frames < lm) :
    soiStep lm Mode.index s 0xd8 = (s, some Err.tooManyFrames) := by
  simp [soiStep, hge]

theorem lengthStep_shape (s : M) (c : Nat) (t : M) (r : Except Err Nat)
    (h : lengthStep s c = (t, r)) :
    t.data = s.data ∧ t.events = s.events ∧ t.ilog = s.ilog ∧ t.frames = s.frames ∧
      t.eoiRead = s.eoiRead ∧ s.pos ≤ t.pos ∧
      (∀ pl, r = Except.ok pl → t.rc - (t.pos : Int) = s.rc - (s.pos : Int)) := by
  rw [lengthStep] at h
  by_cases hsa : jpeg_isStandAlone c
  · rw [if_pos hsa] at h
    cases h
    exact ⟨rfl, rfl, rfl, rfl, rfl, le_refl _, by intro pl hpl; ring⟩
  · rw [if_neg hsa] at h
    cases hg1 : s.data[s.pos]? with
    | none =>
      simp only [hg1] at h
      cases h
      exact ⟨rfl, rfl, rfl, rfl, rfl, le_refl _, by intro pl hpl; cases hpl⟩
    | some b1 =>
      simp only [hg1] at h
      cases hg2 : s.data[s.pos + 1]? with
      | none =>
        simp only [hg2] at h
        cases h
        refine ⟨rfl, rfl, rfl, rfl, rfl, by simp [tickRC, advance], ?_⟩
        intro pl hpl
        cases hpl
      | some b2 =>
        simp only [hg2] at h
        by_cases hlt : (b1 <<< 8) ||| b2 < 2
        · rw [if_pos hlt] at h
          cases h
          refine ⟨rfl, rfl, rfl, rfl, rfl, by simp [advance], ?_⟩
          intro pl hpl
          cases hpl
        · rw [if_neg hlt] at h
          cases h
          refine ⟨rfl, rfl, rfl, rfl, rfl, by simp [advance], ?_⟩
          intro pl hpl
          simp [advance]

theorem skipPayload_shape (s : M) (n : Nat) :
    (skipPayload s n).data = s.data ∧ (skipPayload s n).events = s.events ∧
      (skipPayload s n).ilog = s.ilog ∧ (skipPayload s n).frames = s.frames ∧
      (skipPayload s n).eoiRead = s.eoiRead ∧ s.pos ≤ (skipPayload s n).pos ∧
      (skipPayload s n).rc - ((skipPayload s n).pos : Int) = s.rc - (s.pos : Int) := by
  rw [skipPayload]
  by_cases h : 0 < n
  · rw [if_pos h]
    refine ⟨rfl, rfl, rfl, rfl, rfl, by simp [advance], ?_⟩
    simp [advance]
  · rw [if_neg h]
    exact ⟨rfl, rfl, rfl, rfl, rfl, le_refl _, by ring⟩

theorem lengthStep_standalone (s : M) (c : Nat) (hsa : jpeg_isStandAlone c = true) :
    lengthStep s c = (s, Except.ok 0) := by
  simp [lengthStep, hsa]

theorem afterMarker_eoi (lm : Nat) (mode : Mode) (n : Nat) (s2 : M) :
    afterMarker lm mode n s2 0xd9 = IOut.next (setEoi (emitMark s2 0xd9) 0xd9) := by
  unfold afterMarker
  dsimp only
  rw [soiStep_not_soi lm mode (emitMark s2 0xd9) 0xd9 (by decide)]
  dsimp only
  rw [lengthStep_standalone (emitMark s2 0xd9) 0xd9 (by decide)]
  dsimp only
  simp [skipPayload]

theorem afterMarker_next_props (lm : Nat) (mode : Mode) (n : Nat) (s2 : M) (c : Nat) (t : M)
    (h : afterMarker lm mode n s2 c = IOut.next t) :
    t.data = s2.data ∧ s2.pos ≤ t.pos ∧ t.rc - (t.pos : Int) = s2.rc - (s2.pos : Int) ∧
      (∃ tail, t.events = s2.events ++ Ev.mark c (s2.rc - 2) :: tail) ∧
      ((t.ilog = s2.ilog ∧ t.frames = s2.frames) ∨
        (c = 0xd8 ∧ s2.frames < lm ∧ t.ilog = s2.ilog ++ [IdxW.seq (s2.rc - 2)] ∧
          t.frames = s2.frames + 1)) ∧
      t.eoiRead = (c == 0xd9) ∧
      (c = 0xd9 → t.events = s2.events ++ [Ev.mark 0xd9 (s2.rc - 2)]) := by
  by_cases hd9 : c = 0xd9
  · subst hd9
    rw [afterMarker_eoi] at h
    cases h
    refine ⟨rfl, le_refl _, by simp [setEoi, emitMark], ⟨[], rfl⟩, Or.inl ⟨rfl, rfl⟩, rfl,
      fun _ => rfl⟩
  · -- generic marker, not EOI
    unfold afterMarker at h
    dsimp only at h
    -- analyze the SOI step
    have hso : ∃ sA, soiStep lm mode (emitMark s2 c) c = (sA, none) ∧
        sA.data = s2.data ∧ sA.pos = s2.pos ∧ sA.rc = s2.rc ∧ sA.eoiRead = s2.eoiRead ∧
        sA.events = s2.events ++ [Ev.mark c (s2.rc - 2)] ∧
        ((sA.ilog = s2.ilog ∧ sA.frames = s2.frames) ∨
          (c = 0xd8 ∧ s2.frames < lm ∧ sA.ilog = s2.ilog ++ [IdxW.seq (s2.rc - 2)] ∧
            sA.frames = s2.frames + 1)) := by
      by_cases hc8 : c = 0xd8
      · subst hc8
        by_cases hlt : s2.frames < lm
        · refine ⟨_, soiStep_soi_lt lm mode (emitMark s2 0xd8) hlt, ?_⟩
          exact ⟨rfl, rfl, rfl, rfl, rfl, Or.inr ⟨rfl, hlt, rfl, rfl⟩⟩
        · cases mode with
          | trace =>
            refine ⟨_, soiStep_soi_sat_trace lm (emitMark s2 0xd8) hlt, ?_⟩
            exact ⟨rfl, rfl, rfl, rfl, rfl, Or.inl ⟨rfl, rfl⟩⟩
          | index =>
            rw [soiStep_soi_sat_index lm (emitMark s2 0xd8) hlt] at h
            dsimp only at h
            cases h
      · refine ⟨_, soiStep_not_soi lm mode (emitMark s2 c) c hc8, ?_⟩
        exact ⟨rfl, rfl, rfl, rfl, rfl, Or.inl ⟨rfl, rfl⟩⟩
    obtain ⟨sA, hsoEq, hAd, hAp, hAr, hAb, hAe, hAlog⟩ := hso
    rw [hsoEq] at h
    dsimp only at h
    cases hls : lengthStep sA c with
    | mk sB r2 =>
      rw [hls] at h
      obtain ⟨hBd, hBe, hBi, hBf, hBb, hBp, hBr⟩ := lengthStep_shape sA c sB r2 hls
      cases r2 with
      | error e =>
        dsimp only at h
        cases h
      | ok pl =>
        dsimp only at h
        have hBr' := hBr pl rfl
        obtain ⟨hPd, hPe, hPi, hPf, hPb, hPp, hPr⟩ := skipPayload_shape sB pl
        by_cases hda : c = 0xda
        · rw [if_pos hda] at h
          cases hsc : scanData n (skipPayload sB pl) with
          | mk s5 r5 =>
            rw [hsc] at h
            obtain ⟨hSd, hSi, hSf, hSb, ⟨tailS, hSe⟩, hSdone⟩ :=
              scanData_props n (skipPayload sB pl) s5 r5 hsc
            cases r5 with
            | fuelOut => dsimp only at h; cases h
            | errS e => dsimp only at h; cases h
            | done =>
              dsimp only at h
              cases h
              obtain ⟨hS1, hS2, _⟩ := hSdone rfl
              refine ⟨?_, ?_, ?_, ?_, ?_, rfl, fun hc9 => absurd hc9 hd9⟩
              · show s5.data = s2.data
                rw [hSd, hPd, hBd, hAd]
              · show s2.pos ≤ s5.pos
                calc s2.pos = sA.pos := hAp.symm
                  _ ≤ sB.pos := hBp
                  _ ≤ (skipPayload sB pl).pos := hPp
                  _ ≤ s5.pos := hS1
              · show s5.rc - (s5.pos : Int) = s2.rc - (s2.pos : Int)
                rw [hS2, hPr, hBr', hAr, hAp]
              · refine ⟨tailS, ?_⟩
                show s5.events = s2.events ++ Ev.mark c (s2.rc - 2) :: tailS
                rw [hSe, hPe, hBe, hAe]
                simp
              · rcases hAlog with ⟨hi, hf⟩ | ⟨hc8, hlt, hi, hf⟩
                · refine Or.inl ⟨?_, ?_⟩
                  · show s5.ilog = s2.ilog
                    rw [hSi, hPi, hBi, hi]
                  · show s5.frames = s2.frames
                    rw [hSf, hPf, hBf, hf]
                · refine Or.inr ⟨hc8, hlt, ?_, ?_⟩
                  · show s5.ilog = s2.ilog ++ [IdxW.seq (s2.rc - 2)]
                    rw [hSi, hPi, hBi, hi]
                  · show s5.frames = s2.frames + 1
                    rw [hSf, hPf, hBf, hf]
        · rw [if_neg hda] at h
          cases h
          refine ⟨?_, ?_, ?_, ?_, ?_, rfl, fun hc9 => absurd hc9 hd9⟩
          · show (skipPayload sB pl).data = s2.data
            rw [hPd, hBd, hAd]
          · show s2.pos ≤ (skipPayload sB pl).pos
            calc s2.pos = sA.pos := hAp.symm
              _ ≤ sB.pos := hBp
              _ ≤ (skipPayload sB pl).pos := hPp
          · show (skipPayload sB pl).rc - ((skipPayload sB pl).pos : Int) = s2.rc - (s2.pos : Int)
            rw [hPr, hBr', hAr, hAp]
          · refine ⟨[], ?_⟩
            show (skipPayload sB pl).events = s2.events ++ [Ev.mark c (s2.rc - 2)]
            rw [hPe, hBe, hAe]
          · rcases hAlog with ⟨hi, hf⟩ | ⟨hc8, hlt, hi, hf⟩
            · refine Or.inl ⟨?_, ?_⟩
              · show (skipPayload sB pl).ilog = s2.ilog
                rw [hPi, hBi, hi]
              · show (skipPayload sB pl).frames = s2.frames
                rw [hPf, hBf, hf]
            · refine Or.inr ⟨hc8, hlt, ?_, ?_⟩
              · show (skipPayload sB pl).ilog = s2.ilog ++ [IdxW.seq (s2.rc - 2)]
                rw [hPi, hBi, hi]
              · show (skipPayload sB pl).frames = s2.frames + 1
                rw [hPf, hBf, hf]

theorem afterMarker_not_finished (lm : Nat) (mode : Mode) (n : Nat) (s : M) (c : Nat) (t : M) :
    afterMarker lm mode n s c ≠ IOut.finished t := by
  intro h
  unfold afterMarker at h
  dsimp only at h
  cases hso : soiStep lm mode (emitMark s c) c with
  | mk sA oe =>
    rw [hso] at h
    cases oe with
    | some e => dsimp only at h; cases h
    | none =>
      dsimp only at h
      cases hls : lengthStep sA c with
      | mk sB r2 =>
        rw [hls] at h
        cases r2 with
        | error e => dsimp only at h; cases h
        | ok pl =>
          dsimp only at h
          by_cases hda : c = 0xda
          · rw [if_pos hda] at h
            cases hsc : scanData n (skipPayload sB pl) with
            | mk s5 r5 =>
              rw [hsc] at h
              cases r5 with
              | fuelOut => dsimp only at h; cases h
              | errS e => dsimp only at h; cases h
              | done => dsimp only at h; cases h
          · rw [if_neg hda] at h
            cases h

theorem runIter_finished (lm : Nat) (mode : Mode) (n : Nat) (s t : M)
    (h : runIter lm mode n s = IOut.finished t) :
    t = tickRC s ∧ s.eoiRead = true ∧ s.data[s.pos]? = none := by
  rw [runIter] at h
  cases hg : s.data[s.pos]? with
  | none =>
    simp only [hg] at h
    by_cases he : s.eoiRead
    · rw [if_pos he] at h
      cases h
      exact ⟨rfl, he, rfl⟩
    · rw [if_neg he] at h
      cases h
  | some c =>
    simp only [hg] at h
    by_cases hcff : c = 0xff
    · subst hcff
      rw [if_pos rfl] at h
      cases hsk : skipFFRun n (advance 1 s) with
      | mk u rr =>
        rw [hsk] at h
        cases rr with
        | fuelOut => dsimp only at h; cases h
        | eofHit => dsimp only at h; cases h
        | byte cm =>
          dsimp only at h
          exact absurd h (afterMarker_not_finished lm mode n u cm t)
    · rw [if_neg hcff] at h
      cases h

theorem runIter_next_props (lm : Nat) (mode : Mode) (n : Nat) (s t : M)
    (hrc : s.rc = (s.pos : Int)) (h : runIter lm mode n s = IOut.next t) :
    t.data = s.data ∧ s.pos + 2 ≤ t.pos ∧ t.rc = (t.pos : Int) ∧
      (∃ tail, t.events = s.events ++ tail) ∧
      ((t.ilog = s.ilog ∧ t.frames = s.frames) ∨
        (∃ o : Nat, t.ilog = s.ilog ++ [IdxW.seq (o : Int)] ∧ t.frames = s.frames + 1 ∧
          s.data[o]? = some 0xff ∧ s.data[o + 1]? = some 0xd8 ∧ s.pos ≤ o ∧ o + 2 ≤ t.pos)) ∧
      (t.eoiRead = true → ∃ off pre, t.events = pre ++ [Ev.mark 0xd9 off]) := by
  rw [runIter] at h
  cases hg : s.data[s.pos]? with
  | none =>
    simp only [hg] at h
    by_cases he : s.eoiRead
    · rw [if_pos he] at h
      cases h
    · rw [if_neg he] at h
      cases h
  | some c =>
    simp only [hg] at h
    by_cases hcff : c = 0xff
    · subst hcff
      rw [if_pos rfl] at h
      cases hsk : skipFFRun n (advance 1 s) with
      | mk u rr =>
        rw [hsk] at h
        cases rr with
        | fuelOut => dsimp only at h; cases h
        | eofHit => dsimp only at h; cases h
        | byte cm =>
          dsimp only at h
          obtain ⟨m, hadv, hgv, hvff, hff⟩ := skipFFRun_byte n (advance 1 s) u cm hsk
          have hud : u.data = s.data := by rw [hadv]; simp [advance]
          have hue : u.events = s.events := by rw [hadv]; simp [advance]
          have hui : u.ilog = s.ilog := by rw [hadv]; simp [advance]
          have huf : u.frames = s.frames := by rw [hadv]; simp [advance]
          have hupos : u.pos = s.pos + m + 2 := by rw [hadv]; simp [advance]; omega
          have hurc : u.rc = s.rc + (m + 2 : Nat) := by rw [hadv]; simp [advance]; ring
          have hgv' : s.data[s.pos + 1 + m]? = some cm := by simpa [advance] using hgv
          obtain ⟨hAd, hAp, hAr, ⟨tail, hAe⟩, hAlog, hAb, hA9⟩ :=
            afterMarker_next_props lm mode n u cm t h
          have hdrift : t.rc = (t.pos : Int) := by
            have : u.rc - (u.pos : Int) = 0 := by
              rw [hurc, hupos, hrc]
              push_cast
              ring
            omega
          refine ⟨hAd.trans hud, by omega, hdrift, ?_, ?_, ?_⟩
          · exact ⟨Ev.mark cm (u.rc - 2) :: tail, by rw [hAe, hue]⟩
          · rcases hAlog with ⟨hi, hf⟩ | ⟨hc8, hlt, hi, hf⟩
            · exact Or.inl ⟨hi.trans hui, hf.trans huf⟩
            · refine Or.inr ⟨s.pos + m, ?_, ?_, ?_, ?_, by omega, by omega⟩
              · rw [hi, hui]
                have : u.rc - 2 = ((s.pos + m : Nat) : Int) := by
                  rw [hurc, hrc]
                  push_cast
                  ring
                rw [this]
              · rw [hf, huf]
              · cases m with
                | zero => simpa using hg
                | succ j =>
                  have := hff j (by omega)
                  have hffj : s.data[s.pos + 1 + j]? = some 0xff := by
                    simpa [advance] using this
                  simpa [Nat.add_comm, Nat.add_assoc, Nat.add_left_comm] using hffj
              · have : s.pos + m + 1 = s.pos + 1 + m := by omega
                rw [this, hgv', hc8]
          · intro hbt
            rw [hAb] at hbt
            have hcm9 : cm = 0xd9 := by
              simpa using hbt
            have := hA9 hcm9
            exact ⟨u.rc - 2, s.events, by rw [this, hue]⟩
    · rw [if_neg hcff] at h
      cases h

/-- The shape of the index-write log maintained throughout a run: the zero
placeholder first, then one sequential write per SOI frame, offsets strictly
ascending, each pointing at an `FF D8` pair fully before the current file
position. -/
def IndexShape (data : List Nat) (pos : Nat) (frames : Nat) (ilog : List IdxW) : Prop :=
  ∃ os : List Nat, ilog = IdxW.seq 0 :: os.map (fun o => IdxW.seq (o : Int)) ∧
    frames = os.length ∧ os.Pairwise (· < ·) ∧
    ∀ o ∈ os, data[o]? = some 0xff ∧ data[o + 1]? = some 0xd8 ∧ o + 2 ≤ pos

theorem runLoop_success_props (lm : Nat) (mode : Mode) (fuel : Nat) (s s' : M)
    (hJ : s.eoiRead = true → ∃ off pre, s.events = pre ++ [Ev.mark 0xd9 off])
    (hrc : s.rc = (s.pos : Int))
    (h : runLoop lm mode fuel s = (s', LRes.success)) :
    s'.eoiRead = true ∧ s'.data[s'.pos]? = none ∧
      (∃ off pre, s'.events = pre ++ [Ev.mark 0xd9 off]) ∧ s'.rc = (s'.pos : Int) + 1 := by
  induction fuel generalizing s with
  | zero =>
    rw [runLoop] at h
    simp at h
  | succ n ih =>
    rw [runLoop] at h
    cases hit : runIter lm mode n s with
    | fuelOut t => rw [hit] at h; simp at h
    | failed t e => rw [hit] at h; simp at h
    | finished t =>
      rw [hit] at h
      have ht : t = s' := by
        cases h
        rfl
      obtain ⟨htick, heoi, hnone⟩ := runIter_finished lm mode n s t hit
      subst ht
      subst htick
      refine ⟨heoi, hnone, hJ heoi, ?_⟩
      show s.rc + 1 = (s.pos : Int) + 1
      rw [hrc]
    | next t =>
      rw [hit] at h
      obtain ⟨htd, htp, htr, _, _, htJ⟩ := runIter_next_props lm mode n s t hrc hit
      exact ih t htJ htr h

theorem runLoop_index_shape (lm : Nat) (mode : Mode) (fuel : Nat) (data : List Nat) (s s' : M)
    (hd : s.data = data) (hrc : s.rc = (s.pos : Int))
    (hshape : IndexShape data s.pos s.frames s.ilog)
    (h : runLoop lm mode fuel s = (s', LRes.success)) :
    s'.data = data ∧ IndexShape data s'.pos s'.frames s'.ilog := by
  induction fuel generalizing s with
  | zero =>
    rw [runLoop] at h
    simp at h
  | succ n ih =>
    rw [runLoop] at h
    cases hit : runIter lm mode n s with
    | fuelOut t => rw [hit] at h; simp at h
    | failed t e => rw [hit] at h; simp at h
    | finished t =>
      rw [hit] at h
      have ht : t = s' := by
        cases h
        rfl
      obtain ⟨htick, _, _⟩ := runIter_finished lm mode n s t hit
      subst ht
      subst htick
      exact ⟨hd, hshape⟩
    | next t =>
      rw [hit] at h
      obtain ⟨htd, htp, htr, _, hlog, _⟩ := runIter_next_props lm mode n s t hrc hit
      refine ih t (htd.trans hd) htr ?_ h
      obtain ⟨os, hos1, hos2, hos3, hos4⟩ := hshape
      rcases hlog with ⟨hi, hf⟩ | ⟨o, hi, hf, ho1, ho2, ho3, ho4⟩
      · refine ⟨os, by rw [hi, hos1], by rw [hf, hos2], hos3, ?_⟩
        intro x hx
        obtain ⟨hx1, hx2, hx3⟩ := hos4 x hx
        exact ⟨hx1, hx2, by omega⟩
      · refine ⟨os ++ [o], ?_, ?_, ?_, ?_⟩
        · rw [hi, hos1]
          simp
        · rw [hf, hos2]
          simp
        · rw [List.pairwise_append]
          refine ⟨hos3, List.pairwise_singleton _ _, ?_⟩
          intro x hx y hy
          obtain ⟨_, _, hx3⟩ := hos4 x hx
          have hy' : y = o := by simpa using hy
          omega
        · intro x hx
          rw [List.mem_append] at hx
          rcases hx with hx | hx
          · obtain ⟨hx1, hx2, hx3⟩ := hos4 x hx
            exact ⟨hx1, hx2, by omega⟩
          · have hx' : x = o := by simpa using hx
            subst hx'
            exact ⟨by rw [← hd]; exact ho1, by rw [← hd]; exact ho2, by omega⟩

theorem lor_shift_byte (a b : Nat) (h : b < 256) : (a <<< 8) ||| b = a * 256 + b := by
  have h256 : (256 : Nat) = 2 ^ 8 := by norm_num
  apply Nat.eq_of_testBit_eq
  intro j
  rw [Nat.testBit_lor, Nat.testBit_shiftLeft]
  have hsplit : a * 256 + b = 2 ^ 8 * a + b := by rw [h256]; ring
  rw [hsplit, Nat.testBit_mul_pow_two_add a (by omega) j]
  by_cases hj : j < 8
  · simp [hj, Nat.not_le.mpr hj]
  · have hb : b.testBit j = false := by
      apply Nat.testBit_lt_two_pow
      calc b < 256 := h
        _ = 2 ^ 8 := h256
        _ ≤ 2 ^ j := Nat.pow_le_pow_right (by norm_num) (by omega)
    simp [hj, hb, Nat.le_of_not_lt (by omega : ¬ j < 8)]

theorem soiStep_props (lm : Nat) (mode : Mode) (s : M) (c : Nat) :
    (soiStep lm mode s c).1.data = s.data ∧ (soiStep lm mode s c).1.pos = s.pos ∧
      (soiStep lm mode s c).1.rc = s.rc ∧ (soiStep lm mode s c).1.events = s.events ∧
      (soiStep lm mode s c).1.eoiRead = s.eoiRead := by
  rw [soiStep.eq_def]
  by_cases hc : c = 0xd8
  · rw [if_pos hc]
    by_cases hlt : s.frames < lm
    · rw [if_pos hlt]
      exact ⟨rfl, rfl, rfl, rfl, rfl⟩
    · rw [if_neg hlt]
      cases mode <;> exact ⟨rfl, rfl, rfl, rfl, rfl⟩
  · rw [if_neg hc]
    exact ⟨rfl, rfl, rfl, rfl, rfl⟩

theorem afterMarker_events (lm : Nat) (mode : Mode) (n : Nat) (s2 : M) (c : Nat) (o : IOut)
    (h : afterMarker lm mode n s2 c = o) :
    ∃ tail, (mOf o).events = s2.events ++ Ev.mark c (s2.rc - 2) :: tail := by
  unfold afterMarker at h
  dsimp only at h
  cases hso : soiStep lm mode (emitMark s2 c) c with
  | mk sA oe =>
    rw [hso] at h
    have hAe : sA.events = s2.events ++ [Ev.mark c (s2.rc - 2)] := by
      have hpr := (soiStep_props lm mode (emitMark s2 c) c).2.2.2.1
      rw [hso] at hpr
      exact hpr
    cases oe with
    | some e =>
      dsimp only at h
      cases h
      exact ⟨[], by show sA.events = _; rw [hAe]⟩
    | none =>
      dsimp only at h
      cases hls : lengthStep sA c with
      | mk sB r2 =>
        rw [hls] at h
        obtain ⟨_, hBe, _, _, _, _, _⟩ := lengthStep_shape sA c sB r2 hls
        cases r2 with
        | error e =>
          dsimp only at h
          cases h
          exact ⟨[], by show sB.events = _; rw [hBe, hAe]⟩
        | ok pl =>
          dsimp only at h
          obtain ⟨_, hPe, _, _, _, _, _⟩ := skipPayload_shape sB pl
          by_cases hda : c = 0xda
          · rw [if_pos hda] at h
            cases hsc : scanData n (skipPayload sB pl) with
            | mk s5 r5 =>
              rw [hsc] at h
              obtain ⟨_, _, _, _, ⟨tS, hSe⟩, _⟩ := scanData_props n (skipPayload sB pl) s5 r5 hsc
              cases r5 with
              | fuelOut =>
                dsimp only at h
                cases h
                exact ⟨tS, by show s5.events = _; rw [hSe, hPe, hBe, hAe]; simp⟩
              | errS e =>
                dsimp only at h
                cases h
                exact ⟨tS, by show s5.events = _; rw [hSe, hPe, hBe, hAe]; simp⟩
              | done =>
                dsimp only at h
                cases h
                exact ⟨tS, by show s5.events = _; rw [hSe, hPe, hBe, hAe]; simp⟩
          · rw [if_neg hda] at h
            cases h
            exact ⟨[], by show (skipPayload sB pl).events = _; rw [hPe, hBe, hAe]⟩

theorem runIter_emits (lm : Nat) (mode : Mode) (fl : Nat) (s : M) (v : Nat)
    (h1 : s.data[s.pos]? = some 0xff) (h2 : s.data[s.pos + 1]? = some v) (hv : v ≠ 0xff) :
    ∃ rest, (mOf (runIter lm mode (fl + 1) s)).events = s.events ++ Ev.mark v s.rc :: rest := by
  rw [runIter]
  simp only [h1, ite_true, eq_self_iff_true]
  rw [skipFFRun_exact 0 (fl + 1) (advance 1 s) v
    (by intro i hi; exact absurd hi (by omega))
    (by simpa [advance] using h2) hv (by omega)]
  dsimp only
  obtain ⟨tail, hT⟩ := afterMarker_events lm mode (fl + 1) (advance (0 + 1) (advance 1 s)) v _ rfl
  refine ⟨tail, ?_⟩
  rw [hT]
  have hoff : (advance (0 + 1) (advance 1 s)).rc - 2 = s.rc := by
    simp [advance]
    ring
  have hev : (advance (0 + 1) (advance 1 s)).events = s.events := by
    simp [advance]
  rw [hoff, hev]

theorem scanData_ff_step (n k : Nat) (s : M) (v : Nat)
    (hff : ∀ i, i < k + 1 → s.data[s.pos + i]? = some 0xff)
    (hv : s.data[s.pos + (k + 1)]? = some v) (hvne : v ≠ 0xff) (hk : k + 1 ≤ n) :
    scanData (n + 1) s =
      (if v = 0 then scanData n (advance (k + 2) s)
       else if jpeg_isImmediate v then
         if v = 0xdc then (emitImm (advance (k + 2) s) v, SRes.errS Err.dnlUnsupported)
         else scanData n (emitImm (advance (k + 2) s) v)
       else (backTwo (advance (k + 2) s), SRes.done)) := by
  rw [scanData]
  have h0 : s.data[s.pos]? = some 0xff := by simpa using hff 0 (by omega)
  simp only [h0, ite_true, eq_self_iff_true]
  rw [skipFFRun_exact k n (advance 1 s) v
    (by
      intro i hi
      have := hff (i + 1) (by omega)
      simpa [advance, Nat.add_comm, Nat.add_assoc, Nat.add_left_comm] using this)
    (by simpa [advance, Nat.add_comm, Nat.add_assoc, Nat.add_left_comm] using hv)
    hvne (by omega)]
  rw [advance_advance]
  have hkk : 1 + (k + 1) = k + 2 := by omega
  rw [hkk]

theorem lengthStep_ok (s : M) (c b1 b2 : Nat) (hsa : jpeg_isStandAlone c = false)
    (h1 : s.data[s.pos]? = some b1) (h2 : s.data[s.pos + 1]? = some b2)
    (hge : ¬ (b1 <<< 8) ||| b2 < 2) :
    lengthStep s c = (advance 2 s, Except.ok (((b1 <<< 8) ||| b2) - 2)) := by
  rw [lengthStep, if_neg (by simp [hsa])]
  simp only [h1, h2]
  rw [if_neg hge]

theorem lengthStep_lt (s : M) (c b1 b2 : Nat) (hsa : jpeg_isStandAlone c = false)
    (h1 : s.data[s.pos]? = some b1) (h2 : s.data[s.pos + 1]? = some b2)
    (hlt : (b1 <<< 8) ||| b2 < 2) :
    lengthStep s c = (advance 2 s, Except.error Err.markerLengthLtTwo) := by
  rw [lengthStep, if_neg (by simp [hsa])]
  simp only [h1, h2]
  rw [if_pos hlt]

/-- C2: when the scan-data skipper reads a 0xFF run followed by a non-zero byte V
that is not an immediate marker, it steps the cursor back by exactly two bytes, so the
byte source stands on the 0xFF pre-marker byte immediately preceding V (the byte at the
final cursor is 0xFF and the next byte is that same non-immediate, non-zero, non-0xFF
V); read_count moves back with the cursor, and the next top-level iteration reports
that same marker V as a normal marker event whose offset is exactly the cursor position
(the marker's leading 0xFF byte). -/
theorem c2_scan_backtrack_then_report (n : Nat) (s t : M)
    (hrc : s.rc = (s.pos : Int)) (h : scanData n s = (t, SRes.done)) :
    t.rc = (t.pos : Int) ∧ s.pos ≤ t.pos ∧
      ∃ v, s.data[t.pos]? = some 0xff ∧ s.data[t.pos + 1]? = some v ∧
        v ≠ 0xff ∧ v ≠ 0 ∧ jpeg_isImmediate v = false ∧
        ∀ lm mode fl, ∃ rest,
          (mOf (runIter lm mode (fl + 1) t)).events =
            t.events ++ Ev.mark v ((t.pos : Int)) :: rest := by
  obtain ⟨hd, _, _, _, _, hdone⟩ := scanData_props n s t SRes.done h
  obtain ⟨hp, hdr, v, hv1, hv2, hv3, hv4, hv5⟩ := hdone rfl
  have htrc : t.rc = (t.pos : Int) := by omega
  refine ⟨htrc, hp, v, hv1, hv2, hv3, hv4, hv5, ?_⟩
  intro lm mode fl
  obtain ⟨rest, hr⟩ := runIter_emits lm mode fl t v (by rw [hd]; exact hv1)
    (by rw [hd]; exact hv2) hv3
  exact ⟨rest, by rw [hr, htrc]⟩

/-- C7: inside a scan-data region, a run of consecutive 0xFF bytes followed by 0x00
(the escaped literal 0xFF of compressed data) is consumed whole: the skipper simply
advances past it and resumes scanning the same compressed region, and the consumer
event list is unchanged (no marker and no immediate event is produced). -/
theorem c7_ff00_escape (n k : Nat) (s : M)
    (hff : ∀ i, i < k + 1 → s.data[s.pos + i]? = some 0xff)
    (h0 : s.data[s.pos + (k + 1)]? = some 0) (hk : k + 1 ≤ n) :
    scanData (n + 1) s = scanData n (advance (k + 2) s) ∧
      (advance (k + 2) s).events = s.events := by
  refine ⟨?_, rfl⟩
  rw [scanData_ff_step n k s 0 hff h0 (by decide) hk]
  rw [if_pos rfl]

/-- C8: inside a scan-data region, a 0xFF run followed by a restart-marker byte
(0xD0-0xD7) is classified immediate, an immediate-marker event for it is emitted, and
the skipper continues consuming the same compressed region with no termination and no
backtrack (it proceeds forward from just past the restart byte). -/
theorem c8_restart_immediate (n k : Nat) (s : M) (v : Nat)
    (hff : ∀ i, i < k + 1 → s.data[s.pos + i]? = some 0xff)
    (hv : s.data[s.pos + (k + 1)]? = some v) (hlo : 0xd0 ≤ v) (hhi : v ≤ 0xd7)
    (hk : k + 1 ≤ n) :
    jpeg_isImmediate v = true ∧
      scanData (n + 1) s = scanData n (emitImm (advance (k + 2) s) v) ∧
      (emitImm (advance (k + 2) s) v).events = s.events ++ [Ev.immed v] := by
  have himm : jpeg_isImmediate v = true := by
    simp [jpeg_isImmediate]
    omega
  refine ⟨himm, ?_, rfl⟩
  rw [scanData_ff_step n k s v hff hv (by omega) hk]
  rw [if_neg (by omega : ¬ v = 0), if_pos himm, if_neg (by omega : ¬ v = 0xdc)]

/-- C3 amended: when the line-count marker DNL (0xDC) appears as an immediate inside
scan data, the scan aborts with the fatal unsupported-feature error
(`DNL markers not supported!`); however, the immediate-marker event for DNL is first
delivered to the consumer (jpgtrace.c line 575 calls reportMarker before the check at
line 578), so the abort happens after, not instead of, the report; the run never
continues past it. -/
theorem c3_dnl_reported_then_fatal (n k : Nat) (s : M)
    (hff : ∀ i, i < k + 1 → s.data[s.pos + i]? = some 0xff)
    (hv : s.data[s.pos + (k + 1)]? = some 0xdc) (hk : k + 1 ≤ n) :
    scanData (n + 1) s = (emitImm (advance (k + 2) s) 0xdc, SRes.errS Err.dnlUnsupported) ∧
      (emitImm (advance (k + 2) s) 0xdc).events = s.events ++ [Ev.immed 0xdc] := by
  refine ⟨?_, rfl⟩
  rw [scanData_ff_step n k s 0xdc hff hv (by decide) hk]
  rw [if_neg (by decide : ¬ (0xdc : Nat) = 0), if_pos (by decide : jpeg_isImmediate 0xdc = true),
    if_pos rfl]

/-- C5: for a non-stand-alone marker the scanner reads exactly two bytes and combines
them big-endian ((b1 << 8) | b2 = b1 * 256 + b2 for bytes); a combined length below 2
is the fatal `Marker length less than two!` protocol error, otherwise the payload
length is the length minus 2; in particular length bytes 00 02 yield payload length 0
and the payload skip is a no-op. -/
theorem c5_length_field (s : M) (c b1 b2 : Nat) (hsa : jpeg_isStandAlone c = false)
    (h1 : s.data[s.pos]? = some b1) (h2 : s.data[s.pos + 1]? = some b2) (hb2 : b2 < 256) :
    (b1 <<< 8) ||| b2 = b1 * 256 + b2 ∧
      (b1 * 256 + b2 < 2 →
        lengthStep s c = (advance 2 s, Except.error Err.markerLengthLtTwo)) ∧
      (2 ≤ b1 * 256 + b2 →
        lengthStep s c = (advance 2 s, Except.ok (b1 * 256 + b2 - 2))) ∧
      (b1 = 0 → b2 = 2 →
        lengthStep s c = (advance 2 s, Except.ok 0) ∧
          skipPayload (advance 2 s) 0 = advance 2 s) := by
  have hbe : (b1 <<< 8) ||| b2 = b1 * 256 + b2 := lor_shift_byte b1 b2 hb2
  refine ⟨hbe, ?_, ?_, ?_⟩
  · intro hlt
    exact lengthStep_lt s c b1 b2 hsa h1 h2 (by omega)
  · intro hge
    have := lengthStep_ok s c b1 b2 hsa h1 h2 (by omega)
    rw [hbe] at this
    exact this
  · intro hb1 hb2'
    subst hb1
    subst hb2'
    have := lengthStep_ok s c 0 2 hsa h1 h2 (by decide)
    refine ⟨by simpa using this, ?_⟩
    rw [skipPayload, if_neg (by decide : ¬ (0:Nat) < 0)]

/-- C6: a run of the scanning loop (either program) succeeds only by reaching
end-of-stream at the start of a new top-level marker unit with the `eoi_read` flag set:
on success the final state is at end-of-stream, the flag is set, and the last event
reported was an End-Of-Image marker unit; any stream truncated without a trailing EOI
therefore cannot end in success. -/
theorem c6_eos_only_after_eoi (lm : Nat) (mode : Mode) (fuel : Nat) (data : List Nat) (s : M)
    (h : runLoop lm mode fuel (initM mode data) = (s, LRes.success)) :
    s.eoiRead = true ∧ s.data[s.pos]? = none ∧
      ∃ off pre, s.events = pre ++ [Ev.mark 0xd9 off] := by
  have hres := runLoop_success_props lm mode fuel (initM mode data) s
    (by intro hb; simp [initM] at hb) rfl h
  exact ⟨hres.1, hres.2.1, hres.2.2.1⟩

/-- C4 amended: at every loop head where all reads so far succeeded, the indexer's
read_count equals the bytes consumed by reads and forward seeks minus the two bytes
returned per scan-data lookback (read_count = pos), and this is preserved by every
`next` iteration; however, a getc that returns end-of-stream still increments
read_count (mjpg_index.c lines 372-373), so at the successful-termination point
read_count exceeds the bytes consumed by exactly one. -/
theorem c4_cursor_invariant (lm : Nat) (mode : Mode) (n : Nat) (s : M)
    (hrc : s.rc = (s.pos : Int)) :
    (∀ t, runIter lm mode n s = IOut.next t → t.rc = (t.pos : Int)) ∧
      (∀ t, runIter lm mode n s = IOut.finished t →
        t.pos = s.pos ∧ t.rc = (t.pos : Int) + 1 ∧ t.data[t.pos]? = none) := by
  constructor
  · intro t ht
    exact (runIter_next_props lm mode n s t hrc ht).2.2.1
  · intro t ht
    obtain ⟨htick, _, hnone⟩ := runIter_finished lm mode n s t ht
    subst htick
    refine ⟨rfl, ?_, hnone⟩
    show s.rc + 1 = (s.pos : Int) + 1
    rw [hrc]

/-- C9 amended: when one more Start-Of-Image arrives than LONG_MAX (modelled by the
parameter lm) allows, mjpg_index fails fatally with the `Too many frames!`
resource-limit diagnostic; jpgtrace, by contrast, silently saturates its frame counter
and can run to successful completion, with the final statistics line showing the
overflow indication instead of a count (jpgtrace.c lines 435-438 and 609-613). -/
theorem c9_overflow_split (lm n : Nat) (s : M) (hfr : s.frames = lm)
    (h1 : s.data[s.pos]? = some 0xff) (h2 : s.data[s.pos + 1]? = some 0xd8) :
    runIter lm Mode.index (n + 1) s =
      IOut.failed (emitMark (advance 2 s) 0xd8) Err.tooManyFrames ∧
      (jpgtraceRun 1 30 [0xff, 0xd8, 0xff, 0xd9, 0xff, 0xd8, 0xff, 0xd9]).2 = LRes.success ∧
      (jpgtraceRun 1 30 [0xff, 0xd8, 0xff, 0xd9, 0xff, 0xd8, 0xff, 0xd9]).1.frames = 1 ∧
      traceImageCount 1 (jpgtraceRun 1 30 [0xff, 0xd8, 0xff, 0xd9, 0xff, 0xd8, 0xff, 0xd9]).1 =
        none := by
  refine ⟨?_, by decide, by decide, by decide⟩
  rw [runIter]
  simp only [h1, ite_true, eq_self_iff_true]
  rw [skipFFRun_exact 0 (n + 1) (advance 1 s) 0xd8
    (by intro i hi; exact absurd hi (by omega))
    (by simpa [advance] using h2) (by decide) (by omega)]
  dsimp only
  rw [advance_advance]
  norm_num
  unfold afterMarker
  dsimp only
  rw [soiStep_soi_sat_index lm (emitMark (advance 2 s) 0xd8)
    (by show ¬ s.frames < lm; omega)]

/-- C10: at the top level, a marker byte of 0x00 obtained after collapsing the 0xFF
run is not treated as the zero-escape: the classifier accepts 0 without aborting
(0 is inside the checked 0x00-0xFE range) and returns false (not stand-alone), so a
two-byte big-endian length field is read and the resulting payload is skipped; the
iteration emits a normal marker event for value 0 and continues, touching neither the
frame counter nor the index log. -/
theorem c10_zero_marker_at_top (lm : Nat) (mode : Mode) (n : Nat) (s : M) (b1 b2 : Nat)
    (h1 : s.data[s.pos]? = some 0xff) (h2 : s.data[s.pos + 1]? = some 0)
    (h3 : s.data[s.pos + 2]? = some b1) (h4 : s.data[s.pos + 3]? = some b2)
    (hlen : ¬ (b1 <<< 8) ||| b2 < 2) :
    jpeg_isStandAloneChk 0 = some false ∧ jpeg_isStandAlone 0 = false ∧
      ∃ t, runIter lm mode (n + 1) s = IOut.next t ∧
        t.events = s.events ++ [Ev.mark 0 s.rc] ∧
        t.ilog = s.ilog ∧ t.frames = s.frames ∧ t.eoiRead = false ∧
        t.pos = s.pos + 4 + (((b1 <<< 8) ||| b2) - 2) ∧
        t.rc = s.rc + ((4 + (((b1 <<< 8) ||| b2) - 2) : Nat) : Int) := by
  refine ⟨by decide, by decide, ?_⟩
  rw [runIter]
  simp only [h1, ite_true, eq_self_iff_true]
  rw [skipFFRun_exact 0 (n + 1) (advance 1 s) 0
    (by intro i hi; exact absurd hi (by omega))
    (by simpa [advance] using h2) (by decide) (by omega)]
  dsimp only
  rw [advance_advance]
  norm_num
  unfold afterMarker
  dsimp only
  rw [soiStep_not_soi lm mode (emitMark (advance 2 s) 0) 0 (by decide)]
  dsimp only
  rw [lengthStep_ok (emitMark (advance 2 s) 0) 0 b1 b2 (by decide)
    (by show s.data[s.pos + 2]? = some b1; exact h3)
    (by
      show s.data[s.pos + 2 + 1]? = some b2
      have hix : s.pos + 2 + 1 = s.pos + 3 := by omega
      rw [hix]
      exact h4)
    hlen]
  dsimp only
  rw [if_neg (by decide : ¬ (0 : Nat) = 0xda)]
  refine ⟨_, rfl, ?_, ?_, ?_, rfl, ?_, ?_⟩
  · show (skipPayload (advance 2 (emitMark (advance 2 s) 0)) _).events = _
    rw [(skipPayload_shape _ _).2.1]
    show (advance 2 s).events ++ [Ev.mark 0 ((advance 2 s).rc - 2)] = _
    simp [advance]
  · show (skipPayload (advance 2 (emitMark (advance 2 s) 0)) _).ilog = _
    rw [(skipPayload_shape _ _).2.2.1]
    rfl
  · show (skipPayload (advance 2 (emitMark (advance 2 s) 0)) _).frames = _
    rw [(skipPayload_shape _ _).2.2.2.1]
    rfl
  · show (skipPayload (advance 2 (emitMark (advance 2 s) 0)) _).pos = _
    rw [skipPayload]
    by_cases hpl : 0 < ((b1 <<< 8) ||| b2) - 2
    · rw [if_pos hpl]
      show s.pos + 2 + 2 + (((b1 <<< 8) ||| b2) - 2) = _
      omega
    · rw [if_neg hpl]
      show s.pos + 2 + 2 = _
      omega
  · show (skipPayload (advance 2 (emitMark (advance 2 s) 0)) _).rc = _
    rw [skipPayload]
    by_cases hpl : 0 < ((b1 <<< 8) ||| b2) - 2
    · rw [if_pos hpl]
      show s.rc + ((2 : Nat) : Int) + ((2 : Nat) : Int) + ((((b1 <<< 8) ||| b2) - 2 : Nat) : Int)
        = _
      push_cast
      ring
    · rw [if_neg hpl]
      show s.rc + ((2 : Nat) : Int) + ((2 : Nat) : Int) = _
      have hz : ((b1 <<< 8) ||| b2) - 2 = 0 := by omega
      rw [hz]
      push_cast
      ring

/-- C1: if a run of the frame indexer succeeds and counted exactly two frames, the
index-write log is exactly: the zero placeholder written first, then two strictly
ascending offsets, each the absolute offset of the 0xFF byte immediately preceding the
0xD8 of a Start-Of-Image marker, and finally the rewind-and-rewrite of the count with
the true value 2 after the full pass; replaying the log gives an index file whose
64-bit big-endian integers are [2, o1, o2]. -/
theorem c1_index_two_frames (lm fuel : Nat) (data : List Nat) (s : M)
    (h : mjpgIndexRun lm fuel data = (s, LRes.success)) (h2 : s.frames = 2) :
    ∃ o1 o2 : Nat, o1 < o2 ∧
      data[o1]? = some 0xff ∧ data[o1 + 1]? = some 0xd8 ∧
      data[o2]? = some 0xff ∧ data[o2 + 1]? = some 0xd8 ∧
      s.ilog = [IdxW.seq 0, IdxW.seq (o1 : Int), IdxW.seq (o2 : Int), IdxW.rewindCount 2] ∧
      indexFileInts s.ilog = [2, (o1 : Int), (o2 : Int)] ∧
      indexFileBytes s.ilog = int64be 2 ++ int64be (o1 : Int) ++ int64be (o2 : Int) := by
  rw [mjpgIndexRun] at h
  cases hrl : runLoop lm Mode.index fuel (initM Mode.index data) with
  | mk s0 r =>
    rw [hrl] at h
    cases r with
    | fuelOut => simp at h
    | fail e => simp at h
    | success =>
      dsimp only at h
      by_cases hf : s0.frames < 1
      · rw [if_pos hf] at h
        simp at h
      · rw [if_neg hf] at h
        obtain ⟨hd0, hsh⟩ := runLoop_index_shape lm Mode.index fuel data
          (initM Mode.index data) s0 rfl rfl
          ⟨[], by simp [initM], rfl, by simp, by simp⟩ hrl
        cases h
        obtain ⟨os, hos1, hos2, hos3, hos4⟩ := hsh
        have hfr : s0.frames = 2 := h2
        have hlen2 : os.length = 2 := by omega
        obtain ⟨o1, o2, rfl⟩ := List.length_eq_two.1 hlen2
        have hlt : o1 < o2 := by
          have := hos3
          simp [List.pairwise_cons] at this
          exact this
        obtain ⟨ho11, ho12, _⟩ := hos4 o1 (by simp)
        obtain ⟨ho21, ho22, _⟩ := hos4 o2 (by simp)
        refine ⟨o1, o2, hlt, ho11, ho12, ho21, ho22, ?_, ?_, ?_⟩
        · show s0.ilog ++ [IdxW.rewindCount (Int.ofNat s0.frames)] = _
          rw [hos1, hfr]
          simp
        · show indexFileInts (s0.ilog ++ [IdxW.rewindCount (Int.ofNat s0.frames)]) = _
          rw [hos1, hfr]
          simp [indexFileInts, applyIdxW, setSlot]
        · show indexFileBytes (s0.ilog ++ [IdxW.rewindCount (Int.ofNat s0.frames)]) = _
          rw [hos1, hfr]
          simp [indexFileBytes, indexFileInts, applyIdxW, setSlot]

/-- C1 witness: the two-image stream FF D8 FF D9 FF D8 FF D9 indexes to count 2 with
offsets 0 and 4. -/
theorem c1_witness :
    mjpgIndexRun 100 30 [0xff, 0xd8, 0xff, 0xd9, 0xff, 0xd8, 0xff, 0xd9] =
      ({ data := [255, 216, 255, 217, 255, 216, 255, 217], pos := 8, rc := 9, frames := 2,
         eoiRead := true,
         events := [Ev.mark 216 0, Ev.mark 217 2, Ev.mark 216 4, Ev.mark 217 6],
         ilog := [IdxW.seq 0, IdxW.seq 0, IdxW.seq 4, IdxW.rewindCount 2] }, LRes.success) ∧
      ({ data := [255, 216, 255, 217, 255, 216, 255, 217], pos := 8, rc := 9, frames := 2,
         eoiRead := true,
         events := [Ev.mark 216 0, Ev.mark 217 2, Ev.mark 216 4, Ev.mark 217 6],
         ilog := [IdxW.seq 0, IdxW.seq 0, IdxW.seq 4, IdxW.rewindCount 2] } : M).frames = 2 ∧
      (∃ o1 o2 : Nat, o1 < o2 ∧
        [255, 216, 255, 217, 255, 216, 255, 217][o1]? = some 0xff ∧
        [255, 216, 255, 217, 255, 216, 255, 217][o1 + 1]? = some 0xd8 ∧
        [255, 216, 255, 217, 255, 216, 255, 217][o2]? = some 0xff ∧
        [255, 216, 255, 217, 255, 216, 255, 217][o2 + 1]? = some 0xd8 ∧
        [IdxW.seq 0, IdxW.seq 0, IdxW.seq 4, IdxW.rewindCount 2] =
          [IdxW.seq 0, IdxW.seq (o1 : Int), IdxW.seq (o2 : Int), IdxW.rewindCount 2] ∧
        indexFileInts [IdxW.seq 0, IdxW.seq 0, IdxW.seq 4, IdxW.rewindCount 2] =
          [2, (o1 : Int), (o2 : Int)] ∧
        indexFileBytes [IdxW.seq 0, IdxW.seq 0, IdxW.seq 4, IdxW.rewindCount 2] =
          int64be 2 ++ int64be (o1 : Int) ++ int64be (o2 : Int)) :=
  ⟨by decide, rfl,
    c1_index_two_frames 100 30 [0xff, 0xd8, 0xff, 0xd9, 0xff, 0xd8, 0xff, 0xd9]
      { data := [255, 216, 255, 217, 255, 216, 255, 217], pos := 8, rc := 9, frames := 2,
        eoiRead := true,
        events := [Ev.mark 216 0, Ev.mark 217 2, Ev.mark 216 4, Ev.mark 217 6],
        ilog := [IdxW.seq 0, IdxW.seq 0, IdxW.seq 4, IdxW.rewindCount 2] }
      (by decide) (by decide)⟩

/-- C2 witness: scan data 12 FF D9 terminates on the EOI marker with the cursor backed
up to the FF at offset 1. -/
theorem c2_witness :
    (M.mk [0x12, 0xff, 0xd9] 0 0 0 false [] []).rc =
        ((M.mk [0x12, 0xff, 0xd9] 0 0 0 false [] []).pos : Int) ∧
      scanData 5 (M.mk [0x12, 0xff, 0xd9] 0 0 0 false [] []) =
        (M.mk [0x12, 0xff, 0xd9] 1 1 0 false [] [], SRes.done) ∧
      ((M.mk [0x12, 0xff, 0xd9] 1 1 0 false [] []).rc =
          ((M.mk [0x12, 0xff, 0xd9] 1 1 0 false [] []).pos : Int) ∧
        (M.mk [0x12, 0xff, 0xd9] 0 0 0 false [] []).pos ≤
          (M.mk [0x12, 0xff, 0xd9] 1 1 0 false [] []).pos ∧
        ∃ v, (M.mk [0x12, 0xff, 0xd9] 0 0 0 false [] []).data[
            (M.mk [0x12, 0xff, 0xd9] 1 1 0 false [] []).pos]? = some 0xff ∧
          (M.mk [0x12, 0xff, 0xd9] 0 0 0 false [] []).data[
            (M.mk [0x12, 0xff, 0xd9] 1 1 0 false [] []).pos + 1]? = some v ∧
          v ≠ 0xff ∧ v ≠ 0 ∧ jpeg_isImmediate v = false ∧
          ∀ lm mode fl, ∃ rest,
            (mOf (runIter lm mode (fl + 1) (M.mk [0x12, 0xff, 0xd9] 1 1 0 false [] []))).events =
              (M.mk [0x12, 0xff, 0xd9] 1 1 0 false [] []).events ++
                Ev.mark v (((M.mk [0x12, 0xff, 0xd9] 1 1 0 false [] []).pos : Int)) :: rest) := by
  refine ⟨by decide, by decide, ?_⟩
  exact c2_scan_backtrack_then_report 5 (M.mk [0x12, 0xff, 0xd9] 0 0 0 false [] [])
    (M.mk [0x12, 0xff, 0xd9] 1 1 0 false [] []) (by decide) (by decide)

/-- C3 counterexample: on stream FF D8 FF DA 00 02 FF DC, the jpgtrace run fails with
the DNL diagnostic, but the immediate-marker event for DNL is present in the consumer
event list (reportMarker was called for it), refuting the claim that the DNL immediate
is never reported to the consumer. -/
theorem c3_counterexample :
    (jpgtraceRun 100 20 [0xff, 0xd8, 0xff, 0xda, 0x00, 0x02, 0xff, 0xdc]).2 =
        LRes.fail Err.dnlUnsupported ∧
      Ev.immed 0xdc ∈ (jpgtraceRun 100 20 [0xff, 0xd8, 0xff, 0xda, 0x00, 0x02, 0xff, 0xdc]).1.events := by
  decide

/-- C3 witness: scan data FF DC reports the DNL immediate and then fails. -/
theorem c3_witness :
    (M.mk [0xff, 0xdc] 0 0 0 false [] []).data[(M.mk [0xff, 0xdc] 0 0 0 false [] []).pos]? =
        some 0xff ∧
      (M.mk [0xff, 0xdc] 0 0 0 false [] []).data[
        (M.mk [0xff, 0xdc] 0 0 0 false [] []).pos + (0 + 1)]? = some 0xdc ∧
      (scanData (1 + 1) (M.mk [0xff, 0xdc] 0 0 0 false [] []) =
        (emitImm (advance (0 + 2) (M.mk [0xff, 0xdc] 0 0 0 false [] [])) 0xdc,
          SRes.errS Err.dnlUnsupported) ∧
      (emitImm (advance (0 + 2) (M.mk [0xff, 0xdc] 0 0 0 false [] [])) 0xdc).events =
        (M.mk [0xff, 0xdc] 0 0 0 false [] []).events ++ [Ev.immed 0xdc]) := by
  refine ⟨by decide, by decide, ?_⟩
  exact c3_dnl_reported_then_fatal 1 0 (M.mk [0xff, 0xdc] 0 0 0 false [] [])
    (by intro i hi; interval_cases i <;> decide) (by decide) (by decide)

/-- C4 counterexample: the successful indexer run on FF D8 FF D9 consumes 4 bytes
(final position 4) but ends with read_count = 5, because the final end-of-stream getc
incremented read_count without consuming a byte - refuting the claim that the cursor
always equals the bytes consumed and that an end-of-stream read leaves it unchanged. -/
theorem c4_counterexample :
    (mjpgIndexRun 100 20 [0xff, 0xd8, 0xff, 0xd9]).2 = LRes.success ∧
      (mjpgIndexRun 100 20 [0xff, 0xd8, 0xff, 0xd9]).1.pos = 4 ∧
      (mjpgIndexRun 100 20 [0xff, 0xd8, 0xff, 0xd9]).1.rc = 5 ∧
      (mjpgIndexRun 100 20 [0xff, 0xd8, 0xff, 0xd9]).1.rc ≠
        ((mjpgIndexRun 100 20 [0xff, 0xd8, 0xff, 0xd9]).1.pos : Int) := by
  decide

/-- C4 witness: the invariant instantiated at the initial indexer state on FF D8. -/
theorem c4_witness :
    (initM Mode.index [0xff, 0xd8]).rc = ((initM Mode.index [0xff, 0xd8]).pos : Int) ∧
      ((∀ t, runIter 100 Mode.index 5 (initM Mode.index [0xff, 0xd8]) = IOut.next t →
          t.rc = (t.pos : Int)) ∧
        (∀ t, runIter 100 Mode.index 5 (initM Mode.index [0xff, 0xd8]) = IOut.finished t →
          t.pos = (initM Mode.index [0xff, 0xd8]).pos ∧ t.rc = (t.pos : Int) + 1 ∧
            t.data[t.pos]? = none)) := by
  refine ⟨by decide, ?_⟩
  exact c4_cursor_invariant 100 Mode.index 5 (initM Mode.index [0xff, 0xd8]) (by decide)

/-- C5 witness: length bytes 00 02 under marker 0xC0 give payload length 0. -/
theorem c5_witness :
    jpeg_isStandAlone 0xc0 = false ∧
      (M.mk [0x00, 0x02] 0 0 0 false [] []).data[(M.mk [0x00, 0x02] 0 0 0 false [] []).pos]? =
        some 0 ∧
      (M.mk [0x00, 0x02] 0 0 0 false [] []).data[
        (M.mk [0x00, 0x02] 0 0 0 false [] []).pos + 1]? = some 2 ∧
      ((0 <<< 8) ||| 2 = 0 * 256 + 2 ∧
        (0 * 256 + 2 < 2 →
          lengthStep (M.mk [0x00, 0x02] 0 0 0 false [] []) 0xc0 =
            (advance 2 (M.mk [0x00, 0x02] 0 0 0 false [] []),
              Except.error Err.markerLengthLtTwo)) ∧
        (2 ≤ 0 * 256 + 2 →
          lengthStep (M.mk [0x00, 0x02] 0 0 0 false [] []) 0xc0 =
            (advance 2 (M.mk [0x00, 0x02] 0 0 0 false [] []), Except.ok (0 * 256 + 2 - 2))) ∧
        ((0 : Nat) = 0 → (2 : Nat) = 2 →
          lengthStep (M.mk [0x00, 0x02] 0 0 0 false [] []) 0xc0 =
            (advance 2 (M.mk [0x00, 0x02] 0 0 0 false [] []), Except.ok 0) ∧
            skipPayload (advance 2 (M.mk [0x00, 0x02] 0 0 0 false [] [])) 0 =
              advance 2 (M.mk [0x00, 0x02] 0 0 0 false [] []))) := by
  refine ⟨by decide, by decide, by decide, ?_⟩
  exact c5_length_field (M.mk [0x00, 0x02] 0 0 0 false [] []) 0xc0 0 2 (by decide) (by decide)
    (by decide) (by decide)

/-- C6 witness: the trace run on FF D8 FF D9 succeeds at end-of-stream with eoi_read
set and the EOI marker as last event. -/
theorem c6_witness :
    runLoop 100 Mode.trace 10 (initM Mode.trace [0xff, 0xd8, 0xff, 0xd9]) =
        (M.mk [255, 216, 255, 217] 4 5 1 true [Ev.mark 216 0, Ev.mark 217 2] [IdxW.seq 0],
          LRes.success) ∧
      ((M.mk [255, 216, 255, 217] 4 5 1 true [Ev.mark 216 0, Ev.mark 217 2]
            [IdxW.seq 0]).eoiRead = true ∧
        (M.mk [255, 216, 255, 217] 4 5 1 true [Ev.mark 216 0, Ev.mark 217 2]
            [IdxW.seq 0]).data[
          (M.mk [255, 216, 255, 217] 4 5 1 true [Ev.mark 216 0, Ev.mark 217 2]
            [IdxW.seq 0]).pos]? = none ∧
        ∃ off pre,
          (M.mk [255, 216, 255, 217] 4 5 1 true [Ev.mark 216 0, Ev.mark 217 2]
            [IdxW.seq 0]).events = pre ++ [Ev.mark 0xd9 off]) := by
  refine ⟨by decide, ?_⟩
  exact c6_eos_only_after_eoi 100 Mode.trace 10 [0xff, 0xd8, 0xff, 0xd9]
    (M.mk [255, 216, 255, 217] 4 5 1 true [Ev.mark 216 0, Ev.mark 217 2] [IdxW.seq 0])
    (by decide)

/-- C7 witness: the run FF FF 00 inside scan data is consumed with no event. -/
theorem c7_witness :
    (∀ i, i < 1 + 1 →
        (M.mk [0xff, 0xff, 0x00, 0x41] 0 0 0 false [] []).data[
          (M.mk [0xff, 0xff, 0x00, 0x41] 0 0 0 false [] []).pos + i]? = some 0xff) ∧
      (M.mk [0xff, 0xff, 0x00, 0x41] 0 0 0 false [] []).data[
        (M.mk [0xff, 0xff, 0x00, 0x41] 0 0 0 false [] []).pos + (1 + 1)]? = some 0 ∧
      (scanData (5 + 1) (M.mk [0xff, 0xff, 0x00, 0x41] 0 0 0 false [] []) =
        scanData 5 (advance (1 + 2) (M.mk [0xff, 0xff, 0x00, 0x41] 0 0 0 false [] [])) ∧
      (advance (1 + 2) (M.mk [0xff, 0xff, 0x00, 0x41] 0 0 0 false [] [])).events =
        (M.mk [0xff, 0xff, 0x00, 0x41] 0 0 0 false [] []).events) := by
  refine ⟨by intro i hi; interval_cases i <;> decide, by decide, ?_⟩
  exact c7_ff00_escape 5 1 (M.mk [0xff, 0xff, 0x00, 0x41] 0 0 0 false [] [])
    (by intro i hi; interval_cases i <;> decide) (by decide) (by omega)

/-- C8 witness: FF D0 inside scan data emits the RST0 immediate and scanning
continues. -/
theorem c8_witness :
    (M.mk [0xff, 0xd0, 0x33] 0 0 0 false [] []).data[
        (M.mk [0xff, 0xd0, 0x33] 0 0 0 false [] []).pos + (0 + 1)]? = some 0xd0 ∧
      (jpeg_isImmediate 0xd0 = true ∧
        scanData (3 + 1) (M.mk [0xff, 0xd0, 0x33] 0 0 0 false [] []) =
          scanData 3 (emitImm (advance (0 + 2) (M.mk [0xff, 0xd0, 0x33] 0 0 0 false [] []))
            0xd0) ∧
        (emitImm (advance (0 + 2) (M.mk [0xff, 0xd0, 0x33] 0 0 0 false [] [])) 0xd0).events =
          (M.mk [0xff, 0xd0, 0x33] 0 0 0 false [] []).events ++ [Ev.immed 0xd0]) := by
  refine ⟨by decide, ?_⟩
  exact c8_restart_immediate 3 0 (M.mk [0xff, 0xd0, 0x33] 0 0 0 false [] []) 0xd0
    (by intro i hi; interval_cases i <;> decide) (by decide) (by decide) (by decide) (by omega)

/-- C9 counterexample: with the frame-counter limit modelled as 1, the jpgtrace run on
two back-to-back images completes successfully with the counter saturated at 1 and the
statistics line showing the overflow indication - refuting the claim that every
frame-counter overflow terminates the operation fatally. -/
theorem c9_counterexample :
    (jpgtraceRun 1 30 [0xff, 0xd8, 0xff, 0xd9, 0xff, 0xd8, 0xff, 0xd9]).2 = LRes.success ∧
      (jpgtraceRun 1 30 [0xff, 0xd8, 0xff, 0xd9, 0xff, 0xd8, 0xff, 0xd9]).1.frames = 1 ∧
      traceImageCount 1 (jpgtraceRun 1 30 [0xff, 0xd8, 0xff, 0xd9, 0xff, 0xd8, 0xff, 0xd9]).1 =
        none := by
  decide

/-- C9 witness: an indexer state with the counter already at the limit fails with
`Too many frames!` on the next SOI. -/
theorem c9_witness :
    (M.mk [0xff, 0xd8] 0 0 1 false [] []).frames = 1 ∧
      (runIter 1 Mode.index (0 + 1) (M.mk [0xff, 0xd8] 0 0 1 false [] []) =
        IOut.failed (emitMark (advance 2 (M.mk [0xff, 0xd8] 0 0 1 false [] [])) 0xd8)
          Err.tooManyFrames ∧
      (jpgtraceRun 1 30 [0xff, 0xd8, 0xff, 0xd9, 0xff, 0xd8, 0xff, 0xd9]).2 = LRes.success ∧
      (jpgtraceRun 1 30 [0xff, 0xd8, 0xff, 0xd9, 0xff, 0xd8, 0xff, 0xd9]).1.frames = 1 ∧
      traceImageCount 1 (jpgtraceRun 1 30 [0xff, 0xd8, 0xff, 0xd9, 0xff, 0xd8, 0xff, 0xd9]).1 =
        none) := by
  refine ⟨by decide, ?_⟩
  exact c9_overflow_split 1 0 (M.mk [0xff, 0xd8] 0 0 1 false [] []) (by decide) (by decide)
    (by decide)

/-- C10 witness: FF 00 00 04 55 66 at top level reads marker 0, length 4, and skips
the two payload bytes. -/
theorem c10_witness :
    (M.mk [0xff, 0x00, 0x00, 0x04, 0x55, 0x66] 0 0 0 false [] []).data[
        (M.mk [0xff, 0x00, 0x00, 0x04, 0x55, 0x66] 0 0 0 false [] []).pos + 1]? = some 0 ∧
      (jpeg_isStandAloneChk 0 = some false ∧ jpeg_isStandAlone 0 = false ∧
        ∃ t, runIter 100 Mode.trace (3 + 1)
            (M.mk [0xff, 0x00, 0x00, 0x04, 0x55, 0x66] 0 0 0 false [] []) = IOut.next t ∧
          t.events = (M.mk [0xff, 0x00, 0x00, 0x04, 0x55, 0x66] 0 0 0 false [] []).events ++
            [Ev.mark 0 (M.mk [0xff, 0x00, 0x00, 0x04, 0x55, 0x66] 0 0 0 false [] []).rc] ∧
          t.ilog = (M.mk [0xff, 0x00, 0x00, 0x04, 0x55, 0x66] 0 0 0 false [] []).ilog ∧
          t.frames = (M.mk [0xff, 0x00, 0x00, 0x04, 0x55, 0x66] 0 0 0 false [] []).frames ∧
          t.eoiRead = false ∧
          t.pos = (M.mk [0xff, 0x00, 0x00, 0x04, 0x55, 0x66] 0 0 0 false [] []).pos + 4 +
            (((0 <<< 8) ||| 4) - 2) ∧
          t.rc = (M.mk [0xff, 0x00, 0x00, 0x04, 0x55, 0x66] 0 0 0 false [] []).rc +
            ((4 + (((0 <<< 8) ||| 4) - 2) : Nat) : Int)) := by
  refine ⟨by decide, ?_⟩
  exact c10_zero_marker_at_top 100 Mode.trace 3
    (M.mk [0xff, 0x00, 0x00, 0x04, 0x55, 0x66] 0 0 0 false [] []) 0 4 (by decide) (by decide)
    (by decide) (by decide) (by decide)
